import Mathlib

/-!
# SSVM interpreter: control-flow handlers

A shallow embedding of `lib/interpreter/engine/control.cpp` (namespace
`SSVM::Interpreter`).  The handlers are translated statement by statement.
Dereferencing an `Expect` that holds no value (`*StoreMgr.getModule(..)`),
popping something that is not an operand and `retrieveValue` on the wrong
variant are undefined in the C++; here such a run yields `none`.

The three interpreter primitives the handlers tail-call (`enterBlock`,
`enterFunction`, `branchToLabel`) live in other translation units; they are
taken as parameters, bundled in `Engine`.
-/

namespace SSVM

/-- Value types; `None` is the empty block type. -/
inductive ValType where
  | None
  | I32
  | I64
  | F32
  | F64
  | V128
  | FuncRef
  | ExternRef
  deriving DecidableEq, Repr

/-- Block type: `std::variant<ValType, uint32_t>`. -/
inductive BlockType where
  | valType (T : ValType)
  | typeIdx (X : Nat)
  deriving DecidableEq, Repr

/-- Function type: ordered parameter types and ordered result types.
Modelled from the spec: the comparison `operator!=` used by `call_indirect`
is structural on both lists, by type and in order, which is the derived
equality of this structure. -/
structure FType where
  Params : List ValType
  Returns : List ValType
  deriving DecidableEq, Repr

/-- Runtime value, a tagged union.  Numeric payloads are kept as naturals
(bit patterns for floats and vectors); a reference is `none` when null. -/
inductive ValVariant where
  | I32 (V : Nat)
  | I64 (V : Nat)
  | F32 (Bits : Nat)
  | F64 (Bits : Nat)
  | V128 (Bits : Nat)
  | FuncRef (Addr : Option Nat)
  | ExternRef (Addr : Option Nat)
  deriving DecidableEq, Repr

/-- Instruction tree.  Bodies of structured instructions are nested
instruction sequences. -/
inductive Instruction where
  | Plain (OpCode : Nat)
  | Block (BType : BlockType) (Body : List Instruction)
  | Loop (BType : BlockType) (Body : List Instruction)
  | IfElse (BType : BlockType) (IfStatement ElseStatement : List Instruction)
  | Br (LabelIndex : Nat)
  | BrIf (LabelIndex : Nat)
  | BrTable (LabelList : List Nat) (LabelIndex : Nat)
  | Return
  | Call (TargetIndex : Nat)
  | CallIndirect (TableIndex TargetIndex : Nat)

/-- `AST::BlockControlInstruction` (block and loop). -/
structure BlockControlInstruction where
  getBlockType : BlockType
  getBody : List Instruction

/-- `AST::IfElseControlInstruction`. -/
structure IfElseControlInstruction where
  getBlockType : BlockType
  getIfStatement : List Instruction
  getElseStatement : List Instruction

/-- `AST::BrControlInstruction` (br and br_if). -/
structure BrControlInstruction where
  getLabelIndex : Nat

/-- `AST::BrTableControlInstruction`: the label list and the default label. -/
structure BrTableControlInstruction where
  getLabelList : List Nat
  getLabelIndex : Nat

/-- `AST::CallControlInstruction` (call and call_indirect).  For
call_indirect `getTargetIndex` is the type index. -/
structure CallControlInstruction where
  getTargetIndex : Nat
  getTableIndex : Nat
  getOpCode : Nat
  getOffset : Nat

/-- Error codes of `Expect<void>`.
Modelled from the spec: the `ErrCode` enumeration is declared outside this
file; these are the trap kinds of the error taxonomy. -/
inductive ErrCode where
  | UndefinedElement
  | UninitializedElement
  | IndirectCallTypeMismatch
  deriving DecidableEq, Repr

/-- `Expect<void>`: success or an error code. -/
abbrev Expect := Except ErrCode Unit

/-- Function instance: its declared signature, home module and body. -/
structure FunctionInstance where
  ModuleAddr : Nat
  FuncType : FType
  Instrs : List Instruction

/-- Table instance: the element slots, each a reference or null. -/
structure TableInstance where
  FuncElem : List ValVariant

/-- Module instance: the type section and the index-to-address tables. -/
structure ModuleInstance where
  FuncTypes : List FType
  FuncAddrs : List Nat
  TableAddrs : List Nat

/-- Store: registry from addresses to instances. -/
structure StoreManager where
  Modules : List ModuleInstance
  Functions : List FunctionInstance
  Tables : List TableInstance

/-- Label marker of an entered block, loop or taken if-branch. -/
structure Label where
  Arity : Nat
  Cont : Option BlockControlInstruction
  Height : Nat

/-- Frame marker of a function activation. -/
structure Frame where
  ModuleAddr : Nat
  Locals : List ValVariant
  Height : Nat
  Arity : Nat

/-- One entry of the execution stack. -/
inductive StackEntry where
  | Value (V : ValVariant)
  | Label (L : Label)
  | Frame (F : Frame)

/-- Execution stack, innermost entry first.
Modelled from the spec: the stack manager is declared outside this file; it
is one sequence interleaving operand values, labels and frames. -/
structure StackManager where
  Entries : List StackEntry

/-- Mutable state a handler works on: the store passed by reference and the
stack manager member of the interpreter. -/
structure Machine where
  StoreMgr : StoreManager
  StackMgr : StackManager

/-- Outcome of a handler: `none` when the C++ run is undefined, otherwise
the returned `Expect<void>` and the state left behind. -/
abbrev Step := Option (Expect × Machine)

/-- The interpreter primitives the handlers tail-call, defined in other
translation units. -/
structure Engine where
  enterBlock :
    Nat → Nat → Option BlockControlInstruction → List Instruction → Machine → Step
  enterFunction : FunctionInstance → Machine → Step
  branchToLabel : Nat → Machine → Step

/-! ## Collaborator accessors -/

/-- `ModuleInstance::getFuncType`. -/
def ModuleInstance.getFuncType (M : ModuleInstance) (Idx : Nat) : Option FType :=
  M.FuncTypes[Idx]?

/-- `ModuleInstance::getFuncAddr`. -/
def ModuleInstance.getFuncAddr (M : ModuleInstance) (Idx : Nat) : Option Nat :=
  M.FuncAddrs[Idx]?

/-- `ModuleInstance::getTableAddr`. -/
def ModuleInstance.getTableAddr (M : ModuleInstance) (Idx : Nat) : Option Nat :=
  M.TableAddrs[Idx]?

/-- `StoreManager::getModule`. -/
def StoreManager.getModule (S : StoreManager) (Addr : Nat) : Option ModuleInstance :=
  S.Modules[Addr]?

/-- `StoreManager::getFunction`. -/
def StoreManager.getFunction (S : StoreManager) (Addr : Nat) : Option FunctionInstance :=
  S.Functions[Addr]?

/-- `StoreManager::getTable`. -/
def StoreManager.getTable (S : StoreManager) (Addr : Nat) : Option TableInstance :=
  S.Tables[Addr]?

/-- `TableInstance::getSize`. -/
def TableInstance.getSize (T : TableInstance) : Nat :=
  T.FuncElem.length

/-- `TableInstance::getRefAddr`. -/
def TableInstance.getRefAddr (T : TableInstance) (Idx : Nat) : Option ValVariant :=
  T.FuncElem[Idx]?

/-- `FunctionInstance::getFuncType`. -/
def FunctionInstance.getFuncType (F : FunctionInstance) : FType :=
  F.FuncType

/-- Reading a number as `uint32_t`: reduction modulo 2^32. -/
def toU32 (N : Nat) : Nat := N % 2 ^ 32

/-- `retrieveValue<uint32_t>`: the payload of a 32-bit integer value. -/
def retrieveValueU32 : ValVariant → Option Nat
  | .I32 V => some (toU32 V)
  | _ => none

/-- `isNullRef`: a reference holding the null sentinel. -/
def isNullRef : ValVariant → Bool
  | .FuncRef none => true
  | .ExternRef none => true
  | _ => false

/-- `retrieveFuncIdx`: the function address held by a function reference. -/
def retrieveFuncIdx : ValVariant → Option Nat
  | .FuncRef (some A) => some A
  | _ => none

/-- `StackManager::pop`: remove and return the top operand.
Modelled from the spec: a label or a frame is never popped as a value. -/
def StackManager.pop (S : StackManager) : Option (ValVariant × StackManager) :=
  match S.Entries with
  | .Value V :: Rest => some (V, { Entries := Rest })
  | _ => none

/-- Module address of the innermost frame among the entries. -/
def innermostModuleAddr : List StackEntry → Option Nat
  | [] => none
  | .Frame F :: _ => some F.ModuleAddr
  | _ :: Rest => innermostModuleAddr Rest

/-- `StackManager::getModuleAddr`.
Modelled from the spec: the module instance of the innermost frame. -/
def StackManager.getModuleAddr (S : StackManager) : Option Nat :=
  innermostModuleAddr S.Entries

/-- Split the entries at the innermost frame: the entries above it, the
frame, and the entries below it. -/
def splitAtFrame : List StackEntry → Option (List StackEntry × Frame × List StackEntry)
  | [] => none
  | .Frame F :: Rest => some ([], F, Rest)
  | X :: Rest => (splitAtFrame Rest).map fun R => (X :: R.1, R.2.1, R.2.2)

/-- `StackManager::popFrame`.
Modelled from the spec: the stack manager is declared outside this file.
With F the innermost frame, the top result-arity entries are set aside,
every entry down to and including F is discarded, and the saved entries are
put back.  Undefined when the stack holds no frame. -/
def StackManager.popFrame (S : StackManager) : Option StackManager := do
  let (Above, F, Below) ← splitAtFrame S.Entries
  some { Entries := Above.take F.Arity ++ Below }

/-- `Interpreter::getTabInstByIdx`.
Modelled from the spec: this helper is defined in another translation unit;
the table index is resolved through the current module instance. -/
def getTabInstByIdx (M : Machine) (Idx : Nat) : Option TableInstance := do
  let ModAddr ← M.StackMgr.getModuleAddr
  let ModInst ← M.StoreMgr.getModule ModAddr
  let TabAddr ← ModInst.getTableAddr Idx
  M.StoreMgr.getTable TabAddr

/-! ## The handlers of control.cpp -/

/-- `Interpreter::runBlockOp`. -/
def runBlockOp (E : Engine) (Instr : BlockControlInstruction) (M : Machine) : Step :=
  match Instr.getBlockType with
  | .valType T =>
    let Arity := if T = ValType.None then 0 else 1
    E.enterBlock 0 Arity none Instr.getBody M
  | .typeIdx X => do
    let ModAddr ← M.StackMgr.getModuleAddr
    let ModInst ← M.StoreMgr.getModule ModAddr
    let FuncType ← ModInst.getFuncType X
    let Locals := toU32 FuncType.Params.length
    let Arity := toU32 FuncType.Returns.length
    E.enterBlock Locals Arity none Instr.getBody M

/-- `Interpreter::runLoopOp`. -/
def runLoopOp (E : Engine) (Instr : BlockControlInstruction) (M : Machine) : Step :=
  match Instr.getBlockType with
  | .typeIdx X => do
    let ModAddr ← M.StackMgr.getModuleAddr
    let ModInst ← M.StoreMgr.getModule ModAddr
    let FuncType ← ModInst.getFuncType X
    let Arity := toU32 FuncType.Params.length
    E.enterBlock Arity Arity (some Instr) Instr.getBody M
  | .valType _ =>
    E.enterBlock 0 0 (some Instr) Instr.getBody M

/-- `Interpreter::runIfElseOp`. -/
def runIfElseOp (E : Engine) (Instr : IfElseControlInstruction) (M : Machine) : Step := do
  let (Top, Stack1) ← M.StackMgr.pop
  let Cond ← retrieveValueU32 Top
  let M1 : Machine := { M with StackMgr := Stack1 }
  let (Locals, Arity) ←
    match Instr.getBlockType with
    | .valType T => some (0, if T = ValType.None then 0 else 1)
    | .typeIdx X => do
      let ModAddr ← M1.StackMgr.getModuleAddr
      let ModInst ← M1.StoreMgr.getModule ModAddr
      let FuncType ← ModInst.getFuncType X
      some (toU32 FuncType.Params.length, toU32 FuncType.Returns.length)
  if Cond ≠ 0 then
    let IfStatement := Instr.getIfStatement
    if IfStatement.length > 1 then
      E.enterBlock Locals Arity none IfStatement M1
    else
      some (.ok (), M1)
  else
    let ElseStatement := Instr.getElseStatement
    if ElseStatement.length > 1 then
      E.enterBlock Locals Arity none ElseStatement M1
    else
      some (.ok (), M1)

/-- `Interpreter::runBrOp`. -/
def runBrOp (E : Engine) (Instr : BrControlInstruction) (M : Machine) : Step :=
  E.branchToLabel Instr.getLabelIndex M

/-- `Interpreter::runBrIfOp`. -/
def runBrIfOp (E : Engine) (Instr : BrControlInstruction) (M : Machine) : Step := do
  let (Top, Stack1) ← M.StackMgr.pop
  let Cond ← retrieveValueU32 Top
  let M1 : Machine := { M with StackMgr := Stack1 }
  if Cond ≠ 0 then
    runBrOp E Instr M1
  else
    some (.ok (), M1)

/-- `Interpreter::runBrTableOp`. -/
def runBrTableOp (E : Engine) (Instr : BrTableControlInstruction) (M : Machine) : Step := do
  let (Top, Stack1) ← M.StackMgr.pop
  let Value ← retrieveValueU32 Top
  let M1 : Machine := { M with StackMgr := Stack1 }
  let LabelTable := Instr.getLabelList
  if h : Value < LabelTable.length then
    E.branchToLabel (LabelTable.get ⟨Value, h⟩) M1
  else
    E.branchToLabel Instr.getLabelIndex M1

/-- `Interpreter::runReturnOp`. -/
def runReturnOp (M : Machine) : Step := do
  let Stack1 ← M.StackMgr.popFrame
  some (.ok (), { M with StackMgr := Stack1 })

/-- `Interpreter::runCallOp`. -/
def runCallOp (E : Engine) (Instr : CallControlInstruction) (M : Machine) : Step := do
  let ModAddr ← M.StackMgr.getModuleAddr
  let ModInst ← M.StoreMgr.getModule ModAddr
  let FuncAddr ← ModInst.getFuncAddr Instr.getTargetIndex
  let FuncInst ← M.StoreMgr.getFunction FuncAddr
  E.enterFunction FuncInst M

/-- `Interpreter::runCallIndirectOp`. -/
def runCallIndirectOp (E : Engine) (Instr : CallControlInstruction) (M : Machine) : Step := do
  let TabInst ← getTabInstByIdx M Instr.getTableIndex
  let ModAddr ← M.StackMgr.getModuleAddr
  let ModInst ← M.StoreMgr.getModule ModAddr
  let TargetFuncType ← ModInst.getFuncType Instr.getTargetIndex
  let (Top, Stack1) ← M.StackMgr.pop
  let Idx ← retrieveValueU32 Top
  let M1 : Machine := { M with StackMgr := Stack1 }
  if Idx ≥ TabInst.getSize then
    some (.error ErrCode.UndefinedElement, M1)
  else do
    let Ref ← TabInst.getRefAddr Idx
    if isNullRef Ref then
      some (.error ErrCode.UninitializedElement, M1)
    else do
      let FuncAddr ← retrieveFuncIdx Ref
      let FuncInst ← M1.StoreMgr.getFunction FuncAddr
      let FuncType := FuncInst.getFuncType
      if TargetFuncType ≠ FuncType then
        some (.error ErrCode.IndirectCallTypeMismatch, M1)
      else
        E.enterFunction FuncInst M1

/-! ## The block signature as the specification words it -/

/-- The pair (Locals, Arity) the specification assigns to a block type in
the state `M`: (0, 0) for the value type `None`, (0, 1) for any other value
type, and for a type index the numbers of parameters and of results of the
function type at that index in the module of the current frame. -/
def specBlockSignature (M : Machine) : BlockType → Option (Nat × Nat)
  | .valType .None => some (0, 0)
  | .valType _ => some (0, 1)
  | .typeIdx X => do
    let ModAddr ← M.StackMgr.getModuleAddr
    let ModInst ← M.StoreMgr.getModule ModAddr
    let FuncType ← ModInst.getFuncType X
    some (FuncType.Params.length, FuncType.Returns.length)

/-! ## Concrete inputs used to run the handlers -/

/-- A test double for the absent primitives, used when a handler is
evaluated on a concrete input: each primitive succeeds and records the
arguments it was called with as one entry pushed on the stack. -/
def stubEngine : Engine where
  enterBlock := fun Locals Arity Cont _ M =>
    some (.ok (), { M with StackMgr :=
      { Entries := .Label ⟨Arity, Cont, M.StackMgr.Entries.length - Locals⟩ ::
          M.StackMgr.Entries } })
  enterFunction := fun F M =>
    some (.ok (), { M with StackMgr :=
      { Entries := .Frame ⟨F.ModuleAddr, [], 0, F.FuncType.Returns.length⟩ ::
          M.StackMgr.Entries } })
  branchToLabel := fun K M =>
    some (.ok (), { M with StackMgr :=
      { Entries := .Value (.I64 K) :: M.StackMgr.Entries } })

/-- A store with one module, two functions and one table of three slots
whose slot 1 is null. -/
def demoStore : StoreManager where
  Modules :=
    [{ FuncTypes := [⟨[.I32], [.I32]⟩, ⟨[], []⟩, ⟨[.I32, .I64], [.F32]⟩]
       FuncAddrs := [0, 1]
       TableAddrs := [0] }]
  Functions :=
    [{ ModuleAddr := 0, FuncType := ⟨[.I32], [.I32]⟩, Instrs := [.Plain 11] },
     { ModuleAddr := 0, FuncType := ⟨[], []⟩, Instrs := [.Plain 11] }]
  Tables := [{ FuncElem := [.FuncRef (some 0), .FuncRef none, .FuncRef (some 1)] }]

/-- A machine over `demoStore` whose stack is one frame of module 0 with
the 32-bit operand `Top` above it. -/
def demoMachine (Top : Nat) : Machine where
  StoreMgr := demoStore
  StackMgr := { Entries := [.Value (.I32 Top), .Frame ⟨0, [], 0, 0⟩] }

/-- The machine `demoMachine` leaves once its top operand is popped. -/
def demoPopped : Machine where
  StoreMgr := demoStore
  StackMgr := { Entries := [.Frame ⟨0, [], 0, 0⟩] }

/-- An if instruction of value type i32 whose two bodies each hold an
instruction and the end marker. -/
def demoIfElse : IfElseControlInstruction where
  getBlockType := .valType .I32
  getIfStatement := [.Plain 1, .Plain 11]
  getElseStatement := [.Plain 2, .Plain 11]

/-- A machine over `demoStore` inside a nested call: two operands and a
label above the frame of module 0, whose function yields one result, and
below it an operand and the frame of a caller from module 5. -/
def demoNested : Machine where
  StoreMgr := demoStore
  StackMgr :=
    { Entries :=
        [.Value (.I32 8), .Value (.I32 9), .Label ⟨0, none, 0⟩, .Frame ⟨0, [], 0, 1⟩,
          .Value (.I64 3), .Frame ⟨5, [], 0, 0⟩] }

/-! ## Basic facts about the stack -/

theorem StackManager.pop_value (S : StackManager) (V : ValVariant)
    (Rest : List StackEntry) (h : S.Entries = .Value V :: Rest) :
    S.pop = some (V, { Entries := Rest }) := by
  simp [StackManager.pop, h]

theorem StackManager.getModuleAddr_value (S : StackManager) (V : ValVariant)
    (Rest : List StackEntry) (h : S.Entries = .Value V :: Rest) :
    S.getModuleAddr = innermostModuleAddr Rest := by
  simp [StackManager.getModuleAddr, h, innermostModuleAddr]

/-! ## call_indirect -/

/-- C1: when the popped index, read as an unsigned 32-bit number, is not
below the size of the resolved table, `runCallIndirectOp` returns the
UndefinedElement trap, whatever the slots hold and whatever the expected
type is; the state left is the input with the index popped. -/
theorem runCallIndirectOp_undefined_element
    (E : Engine) (Instr : CallControlInstruction) (M : Machine)
    (Idx : Nat) (Rest : List StackEntry) (TabInst : TableInstance)
    (ModAddr : Nat) (ModInst : ModuleInstance) (TargetFuncType : FType)
    (hstack : M.StackMgr.Entries = .Value (.I32 Idx) :: Rest)
    (htab : getTabInstByIdx M Instr.getTableIndex = some TabInst)
    (hmod : M.StackMgr.getModuleAddr = some ModAddr)
    (hinst : M.StoreMgr.getModule ModAddr = some ModInst)
    (htype : ModInst.getFuncType Instr.getTargetIndex = some TargetFuncType)
    (hidx : TabInst.getSize ≤ toU32 Idx) :
    runCallIndirectOp E Instr M =
      some (.error ErrCode.UndefinedElement, { M with StackMgr := { Entries := Rest } }) := by
  simp [runCallIndirectOp, htab, hmod, hinst, htype,
    StackManager.pop_value _ _ _ hstack, retrieveValueU32, hidx]

/-- Witness of C1: a table of size 3 and index 5. -/
theorem runCallIndirectOp_undefined_element_witness :
    runCallIndirectOp stubEngine ⟨1, 0, 17, 0⟩ (demoMachine 5) =
      some (.error ErrCode.UndefinedElement,
        { demoMachine 5 with StackMgr := { Entries := [.Frame ⟨0, [], 0, 0⟩] } }) :=
  runCallIndirectOp_undefined_element stubEngine ⟨1, 0, 17, 0⟩ (demoMachine 5) 5
    [.Frame ⟨0, [], 0, 0⟩] ⟨[.FuncRef (some 0), .FuncRef none, .FuncRef (some 1)]⟩
    0 _ ⟨[], []⟩ rfl rfl rfl rfl rfl (by decide)

/-- C2: when the popped index is below the table size and the slot it
selects is the null reference, `runCallIndirectOp` returns the
UninitializedElement trap, whatever the expected type is. -/
theorem runCallIndirectOp_uninitialized_element
    (E : Engine) (Instr : CallControlInstruction) (M : Machine)
    (Idx : Nat) (Rest : List StackEntry) (TabInst : TableInstance)
    (ModAddr : Nat) (ModInst : ModuleInstance) (TargetFuncType : FType)
    (Ref : ValVariant)
    (hstack : M.StackMgr.Entries = .Value (.I32 Idx) :: Rest)
    (htab : getTabInstByIdx M Instr.getTableIndex = some TabInst)
    (hmod : M.StackMgr.getModuleAddr = some ModAddr)
    (hinst : M.StoreMgr.getModule ModAddr = some ModInst)
    (htype : ModInst.getFuncType Instr.getTargetIndex = some TargetFuncType)
    (hidx : toU32 Idx < TabInst.getSize)
    (hslot : TabInst.getRefAddr (toU32 Idx) = some Ref)
    (hnull : isNullRef Ref = true) :
    runCallIndirectOp E Instr M =
      some (.error ErrCode.UninitializedElement,
        { M with StackMgr := { Entries := Rest } }) := by
  simp [runCallIndirectOp, htab, hmod, hinst, htype,
    StackManager.pop_value _ _ _ hstack, retrieveValueU32, hidx, hslot, hnull]

/-- Witness of C2: a null slot at index 1 and index 1. -/
theorem runCallIndirectOp_uninitialized_element_witness :
    runCallIndirectOp stubEngine ⟨0, 0, 17, 0⟩ (demoMachine 1) =
      some (.error ErrCode.UninitializedElement,
        { demoMachine 1 with StackMgr := { Entries := [.Frame ⟨0, [], 0, 0⟩] } }) :=
  runCallIndirectOp_uninitialized_element stubEngine ⟨0, 0, 17, 0⟩ (demoMachine 1) 1
    [.Frame ⟨0, [], 0, 0⟩] ⟨[.FuncRef (some 0), .FuncRef none, .FuncRef (some 1)]⟩
    0 _ ⟨[.I32], [.I32]⟩ (.FuncRef none) rfl rfl rfl rfl rfl (by decide) rfl rfl

/-- C3: when the popped index selects a non-null function reference and the
signature of the referenced function differs from the expected type in its
parameter list or in its result list, `runCallIndirectOp` returns the
IndirectCallTypeMismatch trap; the result does not depend on the engine, so
the callee is not entered. -/
theorem runCallIndirectOp_type_mismatch
    (E : Engine) (Instr : CallControlInstruction) (M : Machine)
    (Idx : Nat) (Rest : List StackEntry) (TabInst : TableInstance)
    (ModAddr : Nat) (ModInst : ModuleInstance) (TargetFuncType : FType)
    (FuncAddr : Nat) (FuncInst : FunctionInstance)
    (hstack : M.StackMgr.Entries = .Value (.I32 Idx) :: Rest)
    (htab : getTabInstByIdx M Instr.getTableIndex = some TabInst)
    (hmod : M.StackMgr.getModuleAddr = some ModAddr)
    (hinst : M.StoreMgr.getModule ModAddr = some ModInst)
    (htype : ModInst.getFuncType Instr.getTargetIndex = some TargetFuncType)
    (hidx : toU32 Idx < TabInst.getSize)
    (hslot : TabInst.getRefAddr (toU32 Idx) = some (.FuncRef (some FuncAddr)))
    (hfunc : M.StoreMgr.getFunction FuncAddr = some FuncInst)
    (hdiff : TargetFuncType.Params ≠ FuncInst.getFuncType.Params ∨
      TargetFuncType.Returns ≠ FuncInst.getFuncType.Returns) :
    runCallIndirectOp E Instr M =
      some (.error ErrCode.IndirectCallTypeMismatch,
        { M with StackMgr := { Entries := Rest } }) := by
  have hne : ¬ TargetFuncType = FuncInst.getFuncType := by
    intro heq
    rcases hdiff with h | h
    · exact h (congrArg FType.Params heq)
    · exact h (congrArg FType.Returns heq)
  simp [runCallIndirectOp, htab, hmod, hinst, htype,
    StackManager.pop_value _ _ _ hstack, retrieveValueU32, hidx, hslot, isNullRef,
    retrieveFuncIdx, hfunc, hne]

/-- Witness of C3: slot 0 holds function 0 of type [i32] -> [i32] while the
expected type, at type index 1, is [] -> []. -/
theorem runCallIndirectOp_type_mismatch_witness :
    runCallIndirectOp stubEngine ⟨1, 0, 17, 0⟩ (demoMachine 0) =
      some (.error ErrCode.IndirectCallTypeMismatch,
        { demoMachine 0 with StackMgr := { Entries := [.Frame ⟨0, [], 0, 0⟩] } }) :=
  runCallIndirectOp_type_mismatch stubEngine ⟨1, 0, 17, 0⟩ (demoMachine 0) 0
    [.Frame ⟨0, [], 0, 0⟩] ⟨[.FuncRef (some 0), .FuncRef none, .FuncRef (some 1)]⟩
    0 _ ⟨[], []⟩ 0 ⟨0, ⟨[.I32], [.I32]⟩, [.Plain 11]⟩
    rfl rfl rfl rfl rfl (by decide) rfl rfl (Or.inl (by decide))

/-- C4: when the popped index selects a non-null reference to function
address `FuncAddr` whose signature equals the expected type,
`runCallIndirectOp` raises no trap of its own: its outcome is that of
`enterFunction` on the function instance at `FuncAddr`, run on the state
with the index popped, which is also the outcome of `runCallOp` on that
state for any function index that resolves to `FuncAddr`. -/
theorem runCallIndirectOp_match_eq_call
    (E : Engine) (Instr : CallControlInstruction) (M : Machine)
    (Idx : Nat) (Rest : List StackEntry) (TabInst : TableInstance)
    (ModAddr : Nat) (ModInst : ModuleInstance) (TargetFuncType : FType)
    (FuncAddr : Nat) (FuncInst : FunctionInstance)
    (hstack : M.StackMgr.Entries = .Value (.I32 Idx) :: Rest)
    (htab : getTabInstByIdx M Instr.getTableIndex = some TabInst)
    (hmod : M.StackMgr.getModuleAddr = some ModAddr)
    (hinst : M.StoreMgr.getModule ModAddr = some ModInst)
    (htype : ModInst.getFuncType Instr.getTargetIndex = some TargetFuncType)
    (hidx : toU32 Idx < TabInst.getSize)
    (hslot : TabInst.getRefAddr (toU32 Idx) = some (.FuncRef (some FuncAddr)))
    (hfunc : M.StoreMgr.getFunction FuncAddr = some FuncInst)
    (hsame : TargetFuncType = FuncInst.getFuncType) :
    runCallIndirectOp E Instr M =
        E.enterFunction FuncInst { M with StackMgr := { Entries := Rest } } ∧
      ∀ Call : CallControlInstruction,
        ModInst.getFuncAddr Call.getTargetIndex = some FuncAddr →
        runCallIndirectOp E Instr M =
          runCallOp E Call { M with StackMgr := { Entries := Rest } } := by
  have hrun : runCallIndirectOp E Instr M =
      E.enterFunction FuncInst { M with StackMgr := { Entries := Rest } } := by
    simp [runCallIndirectOp, htab, hmod, hinst, htype,
      StackManager.pop_value _ _ _ hstack, retrieveValueU32, hidx, hslot, isNullRef,
      retrieveFuncIdx, hfunc, hsame]
  refine ⟨hrun, ?_⟩
  intro Call hcall
  have hmod1 : innermostModuleAddr Rest = some ModAddr := by
    rw [← StackManager.getModuleAddr_value _ _ _ hstack]; exact hmod
  rw [hrun]
  simp [runCallOp, StackManager.getModuleAddr, hmod1, hinst, hcall, hfunc]

/-- Witness of C4: slot 0 holds function 0 of type [i32] -> [i32], the
expected type at type index 0; `call 0` resolves to the same address. -/
theorem runCallIndirectOp_match_eq_call_witness :
    runCallIndirectOp stubEngine ⟨0, 0, 17, 0⟩ (demoMachine 0) =
        stubEngine.enterFunction ⟨0, ⟨[.I32], [.I32]⟩, [.Plain 11]⟩
          { demoMachine 0 with StackMgr := { Entries := [.Frame ⟨0, [], 0, 0⟩] } } ∧
      ∀ Call : CallControlInstruction,
        (⟨[⟨[.I32], [.I32]⟩, ⟨[], []⟩, ⟨[.I32, .I64], [.F32]⟩], [0, 1], [0]⟩ :
            ModuleInstance).getFuncAddr Call.getTargetIndex = some 0 →
        runCallIndirectOp stubEngine ⟨0, 0, 17, 0⟩ (demoMachine 0) =
          runCallOp stubEngine Call
            { demoMachine 0 with StackMgr := { Entries := [.Frame ⟨0, [], 0, 0⟩] } } :=
  runCallIndirectOp_match_eq_call stubEngine ⟨0, 0, 17, 0⟩ (demoMachine 0) 0
    [.Frame ⟨0, [], 0, 0⟩] ⟨[.FuncRef (some 0), .FuncRef none, .FuncRef (some 1)]⟩
    0 _ ⟨[.I32], [.I32]⟩ 0 ⟨0, ⟨[.I32], [.I32]⟩, [.Plain 11]⟩
    rfl rfl rfl rfl rfl (by decide) rfl rfl rfl

/-- C5, as stated, fails: on a table of size 3 with index 5 the handler
returns UndefinedElement and the stack left behind is not the stack the
instruction started with, the index operand having been popped. -/
theorem runCallIndirectOp_trap_stack_not_preserved :
    runCallIndirectOp stubEngine ⟨1, 0, 17, 0⟩ (demoMachine 5) =
        some (.error ErrCode.UndefinedElement, demoPopped) ∧
      demoPopped.StackMgr ≠ (demoMachine 5).StackMgr := by
  refine ⟨rfl, ?_⟩
  intro h
  have hlen := congrArg (fun S : StackManager => S.Entries.length) h
  simp [demoPopped, demoMachine] at hlen

/-- C5, amended: when the callee entry of the engine reports no error, so
that an error returned by `runCallIndirectOp` is a trap raised by the
handler, the stack left behind is the stack the instruction started with
minus its top entry, the 32-bit index operand; nothing else is popped or
pushed. -/
theorem runCallIndirectOp_trap_pops_only_index
    (E : Engine) (Instr : CallControlInstruction) (M M1 : Machine) (Err : ErrCode)
    (hE : ∀ F M0 R, E.enterFunction F M0 = some R → R.1 = .ok ())
    (h : runCallIndirectOp E Instr M = some (.error Err, M1)) :
    ∃ Idx, M.StackMgr.Entries = .Value (.I32 Idx) :: M1.StackMgr.Entries := by
  rcases hS : M.StackMgr.Entries with _ | ⟨(V | L | F), Rest⟩
  · simp [runCallIndirectOp, StackManager.pop, hS] at h
  · cases V with
    | I32 Idx =>
      refine ⟨Idx, ?_⟩
      simp [runCallIndirectOp, StackManager.pop, hS, retrieveValueU32] at h
      simp only [Option.bind_eq_some] at h
      obtain ⟨TabInst, -, ModAddr, -, ModInst, -, TargetFuncType, -, h⟩ := h
      split_ifs at h with hsize
      · simp only [Option.some.injEq, Prod.mk.injEq] at h
        rw [← h.2]
      · simp only [Option.bind_eq_some] at h
        obtain ⟨Ref, -, h⟩ := h
        split_ifs at h with hnull
        · simp only [Option.some.injEq, Prod.mk.injEq] at h
          rw [← h.2]
        · simp only [Option.bind_eq_some] at h
          obtain ⟨FuncAddr, -, FuncInst, -, h⟩ := h
          split_ifs at h with hty
          · have hok := hE _ _ _ h
            simp at hok
          · simp only [Option.some.injEq, Prod.mk.injEq] at h
            rw [← h.2]
    | _ => simp [runCallIndirectOp, StackManager.pop, hS, retrieveValueU32] at h
  · simp [runCallIndirectOp, StackManager.pop, hS] at h
  · simp [runCallIndirectOp, StackManager.pop, hS] at h

/-- Witness of the amended C5: table of size 3, index 5, with an engine
whose callee entry always succeeds. -/
theorem runCallIndirectOp_trap_pops_only_index_witness :
    ∃ Idx, (demoMachine 5).StackMgr.Entries =
      .Value (.I32 Idx) :: demoPopped.StackMgr.Entries :=
  runCallIndirectOp_trap_pops_only_index stubEngine ⟨1, 0, 17, 0⟩ (demoMachine 5)
    demoPopped ErrCode.UndefinedElement
    (fun _ _ R hR => by
      simp only [stubEngine, Option.some.injEq] at hR
      rw [← hR])
    rfl

/-! ## br_table -/

/-- C6: when the popped index, read as an unsigned 32-bit number, is not
below the length of the label list, `runBrTableOp` is `branchToLabel` on the
default label, run on the state with the index popped; the handler adds no
trap of its own. -/
theorem runBrTableOp_out_of_range_default
    (E : Engine) (Instr : BrTableControlInstruction) (M : Machine)
    (V : Nat) (Rest : List StackEntry)
    (hstack : M.StackMgr.Entries = .Value (.I32 V) :: Rest)
    (hge : Instr.getLabelList.length ≤ toU32 V) :
    runBrTableOp E Instr M =
      E.branchToLabel Instr.getLabelIndex { M with StackMgr := { Entries := Rest } } := by
  simp [runBrTableOp, StackManager.pop_value _ _ _ hstack, retrieveValueU32,
    Nat.not_lt.mpr hge]

/-- Witness of C6: label list [4, 7] with default 9; index 2, the length of
the list, and index 3 both reach `branchToLabel 9`. -/
theorem runBrTableOp_out_of_range_default_witness :
    runBrTableOp stubEngine ⟨[4, 7], 9⟩ (demoMachine 2) =
        stubEngine.branchToLabel 9 demoPopped ∧
      runBrTableOp stubEngine ⟨[4, 7], 9⟩ (demoMachine 3) =
        stubEngine.branchToLabel 9 demoPopped :=
  ⟨runBrTableOp_out_of_range_default stubEngine ⟨[4, 7], 9⟩ (demoMachine 2) 2
      [.Frame ⟨0, [], 0, 0⟩] rfl (by decide),
    runBrTableOp_out_of_range_default stubEngine ⟨[4, 7], 9⟩ (demoMachine 3) 3
      [.Frame ⟨0, [], 0, 0⟩] rfl (by decide)⟩

/-- C7: when the popped index, read as an unsigned 32-bit number, is below
the length of the label list, `runBrTableOp` is `branchToLabel` on the entry
of the list at that index, a read within the bounds of the list, run on the
state with the index popped. -/
theorem runBrTableOp_in_range_entry
    (E : Engine) (Instr : BrTableControlInstruction) (M : Machine)
    (V : Nat) (Rest : List StackEntry)
    (hstack : M.StackMgr.Entries = .Value (.I32 V) :: Rest)
    (hlt : toU32 V < Instr.getLabelList.length) :
    runBrTableOp E Instr M =
      E.branchToLabel (Instr.getLabelList.get ⟨toU32 V, hlt⟩)
        { M with StackMgr := { Entries := Rest } } := by
  simp [runBrTableOp, StackManager.pop_value _ _ _ hstack, retrieveValueU32, hlt]

/-- Witness of C7: label list [4, 7] with default 9 and index 1. -/
theorem runBrTableOp_in_range_entry_witness :
    runBrTableOp stubEngine ⟨[4, 7], 9⟩ (demoMachine 1) =
      stubEngine.branchToLabel
        ((⟨[4, 7], 9⟩ : BrTableControlInstruction).getLabelList.get
          ⟨toU32 1, by decide⟩)
        demoPopped :=
  runBrTableOp_in_range_entry stubEngine ⟨[4, 7], 9⟩ (demoMachine 1) 1
    [.Frame ⟨0, [], 0, 0⟩] rfl (by decide)

/-! ## block, loop and if -/

/-- The block signature the specification assigns does not change when an
operand is popped. -/
theorem specBlockSignature_value (M : Machine) (V : ValVariant)
    (Rest : List StackEntry) (BType : BlockType)
    (h : M.StackMgr.Entries = .Value V :: Rest) :
    specBlockSignature { M with StackMgr := { Entries := Rest } } BType =
      specBlockSignature M BType := by
  cases BType with
  | valType T => cases T <;> rfl
  | typeIdx X =>
    simp [specBlockSignature, StackManager.getModuleAddr, h, innermostModuleAddr]

/-- What `runBlockOp` passes to `enterBlock` whenever the specification
assigns the block type a signature whose two counts fit in 32 bits. -/
theorem runBlockOp_of_signature (E : Engine) (M : Machine) (BType : BlockType)
    (Body : List Instruction) (Locals Arity : Nat)
    (hsig : specBlockSignature M BType = some (Locals, Arity))
    (hL : Locals < 2 ^ 32) (hA : Arity < 2 ^ 32) :
    runBlockOp E ⟨BType, Body⟩ M = E.enterBlock Locals Arity none Body M := by
  cases BType with
  | valType T =>
    cases T <;> simp [specBlockSignature] at hsig <;>
      obtain ⟨rfl, rfl⟩ := hsig <;> simp [runBlockOp]
  | typeIdx X =>
    simp only [specBlockSignature, Option.bind_eq_bind, Option.bind_eq_some,
      Option.some.injEq, Prod.mk.injEq] at hsig
    obtain ⟨ModAddr, hmod, ModInst, hinst, FuncType, htype, rfl, rfl⟩ := hsig
    have hL1 : toU32 FuncType.Params.length = FuncType.Params.length :=
      Nat.mod_eq_of_lt hL
    have hA1 : toU32 FuncType.Returns.length = FuncType.Returns.length :=
      Nat.mod_eq_of_lt hA
    simp [runBlockOp, hmod, hinst, htype, hL1, hA1]

/-- The whole of `runIfElseOp` on a state whose top operand is the 32-bit
condition, in terms of the signature the specification assigns. -/
theorem runIfElseOp_of_signature (E : Engine) (M : Machine) (BType : BlockType)
    (IfStatement ElseStatement : List Instruction) (Cond : Nat)
    (Rest : List StackEntry) (Locals Arity : Nat)
    (hstack : M.StackMgr.Entries = .Value (.I32 Cond) :: Rest)
    (hsig : specBlockSignature M BType = some (Locals, Arity)) :
    runIfElseOp E ⟨BType, IfStatement, ElseStatement⟩ M =
      if toU32 Cond ≠ 0 then
        if 1 < IfStatement.length then
          E.enterBlock (toU32 Locals) (toU32 Arity) none IfStatement
            { M with StackMgr := { Entries := Rest } }
        else some (.ok (), { M with StackMgr := { Entries := Rest } })
      else
        if 1 < ElseStatement.length then
          E.enterBlock (toU32 Locals) (toU32 Arity) none ElseStatement
            { M with StackMgr := { Entries := Rest } }
        else some (.ok (), { M with StackMgr := { Entries := Rest } }) := by
  have hmodaddr : innermostModuleAddr Rest = M.StackMgr.getModuleAddr :=
    (StackManager.getModuleAddr_value _ _ _ hstack).symm
  cases BType with
  | valType T =>
    cases T <;> simp [specBlockSignature] at hsig <;>
      obtain ⟨rfl, rfl⟩ := hsig <;>
      simp [runIfElseOp, StackManager.pop_value _ _ _ hstack, retrieveValueU32, toU32]
  | typeIdx X =>
    simp only [specBlockSignature, Option.bind_eq_bind, Option.bind_eq_some,
      Option.some.injEq, Prod.mk.injEq] at hsig
    obtain ⟨ModAddr, hmod, ModInst, hinst, FuncType, htype, rfl, rfl⟩ := hsig
    rw [hmod] at hmodaddr
    simp [runIfElseOp, StackManager.pop_value _ _ _ hstack, retrieveValueU32,
      StackManager.getModuleAddr, hmodaddr, hinst, htype]

/-- C8: the pair (Locals, Arity) handed to `enterBlock` by `runBlockOp`, and
by `runIfElseOp` for the branch it enters, is the one the block type alone
determines: (0, 0) for the value type None, (0, 1) for another value type,
and the parameter and result counts of the function type at the index in
the current module; `runBlockOp` on a state and `runIfElseOp` on that state
with a condition pushed pass the same pair. -/
theorem runBlockOp_runIfElseOp_same_signature
    (E : Engine) (M : Machine) (BType : BlockType)
    (Body IfStatement ElseStatement : List Instruction) (Locals Arity Cond : Nat)
    (hsig : specBlockSignature M BType = some (Locals, Arity))
    (hL : Locals < 2 ^ 32) (hA : Arity < 2 ^ 32) :
    runBlockOp E ⟨BType, Body⟩ M = E.enterBlock Locals Arity none Body M ∧
      (toU32 Cond ≠ 0 → 1 < IfStatement.length →
        runIfElseOp E ⟨BType, IfStatement, ElseStatement⟩
            { M with StackMgr := { Entries := .Value (.I32 Cond) :: M.StackMgr.Entries } } =
          E.enterBlock Locals Arity none IfStatement M) ∧
      (toU32 Cond = 0 → 1 < ElseStatement.length →
        runIfElseOp E ⟨BType, IfStatement, ElseStatement⟩
            { M with StackMgr := { Entries := .Value (.I32 Cond) :: M.StackMgr.Entries } } =
          E.enterBlock Locals Arity none ElseStatement M) := by
  refine ⟨runBlockOp_of_signature E M BType Body Locals Arity hsig hL hA, ?_⟩
  have hL1 : toU32 Locals = Locals := Nat.mod_eq_of_lt hL
  have hA1 : toU32 Arity = Arity := Nat.mod_eq_of_lt hA
  have hsig1 : specBlockSignature
      { M with StackMgr := { Entries := .Value (.I32 Cond) :: M.StackMgr.Entries } }
      BType = some (Locals, Arity) := by
    rw [← hsig]
    exact (specBlockSignature_value _ (.I32 Cond) M.StackMgr.Entries BType rfl).symm
  have hrun := runIfElseOp_of_signature E _ BType IfStatement ElseStatement Cond
    M.StackMgr.Entries Locals Arity rfl hsig1
  rw [hL1, hA1] at hrun
  constructor
  · intro hc hlen
    rw [hrun, if_pos hc, if_pos hlen]
  · intro hc hlen
    rw [hrun, if_neg (not_not.mpr hc), if_pos hlen]

/-- Witness of C8: block type index 2, whose function type has two
parameters and one result; the block, the if with condition 1 and the if
with condition 0 all pass (2, 1). -/
theorem runBlockOp_runIfElseOp_same_signature_witness :
    runBlockOp stubEngine ⟨.typeIdx 2, [.Plain 1, .Plain 11]⟩ demoPopped =
        stubEngine.enterBlock 2 1 none [.Plain 1, .Plain 11] demoPopped ∧
      runIfElseOp stubEngine ⟨.typeIdx 2, [.Plain 1, .Plain 11], [.Plain 2, .Plain 11]⟩
          (demoMachine 1) =
        stubEngine.enterBlock 2 1 none [.Plain 1, .Plain 11] demoPopped ∧
      runIfElseOp stubEngine ⟨.typeIdx 2, [.Plain 1, .Plain 11], [.Plain 2, .Plain 11]⟩
          (demoMachine 0) =
        stubEngine.enterBlock 2 1 none [.Plain 2, .Plain 11] demoPopped :=
  ⟨(runBlockOp_runIfElseOp_same_signature stubEngine demoPopped (.typeIdx 2)
      [.Plain 1, .Plain 11] [.Plain 1, .Plain 11] [.Plain 2, .Plain 11] 2 1 1 rfl
      (by decide) (by decide)).1,
    (runBlockOp_runIfElseOp_same_signature stubEngine demoPopped (.typeIdx 2)
      [.Plain 1, .Plain 11] [.Plain 1, .Plain 11] [.Plain 2, .Plain 11] 2 1 1 rfl
      (by decide) (by decide)).2.1 (by decide) (by decide),
    (runBlockOp_runIfElseOp_same_signature stubEngine demoPopped (.typeIdx 2)
      [.Plain 1, .Plain 11] [.Plain 1, .Plain 11] [.Plain 2, .Plain 11] 2 1 0 rfl
      (by decide) (by decide)).2.2 (by decide) (by decide)⟩

/-- C9: the arity `runLoopOp` hands to `enterBlock` is the parameter count
of the loop, never its result count: 0 for every value type, also one that
declares a result, and the number of parameters of the function type at the
index otherwise, whatever its results; Locals is the same number, and the
continuation is the loop instruction. -/
theorem runLoopOp_arity_is_param_count
    (E : Engine) (M : Machine) (Body : List Instruction) :
    (∀ T : ValType,
        runLoopOp E ⟨.valType T, Body⟩ M =
          E.enterBlock 0 0 (some ⟨.valType T, Body⟩) Body M) ∧
      ∀ (X ModAddr : Nat) (ModInst : ModuleInstance) (FuncType : FType),
        M.StackMgr.getModuleAddr = some ModAddr →
        M.StoreMgr.getModule ModAddr = some ModInst →
        ModInst.getFuncType X = some FuncType →
        FuncType.Params.length < 2 ^ 32 →
        runLoopOp E ⟨.typeIdx X, Body⟩ M =
          E.enterBlock FuncType.Params.length FuncType.Params.length
            (some ⟨.typeIdx X, Body⟩) Body M := by
  refine ⟨fun T => rfl, ?_⟩
  intro X ModAddr ModInst FuncType hmod hinst htype hP
  have hP1 : toU32 FuncType.Params.length = FuncType.Params.length :=
    Nat.mod_eq_of_lt hP
  simp [runLoopOp, hmod, hinst, htype, hP1]

/-- Witness of C9: a loop of value type i32 gets (0, 0), and a loop whose
type index 2 names [i32, i64] -> [f32] gets (2, 2). -/
theorem runLoopOp_arity_is_param_count_witness :
    runLoopOp stubEngine ⟨.valType .I32, [.Plain 1, .Plain 11]⟩ demoPopped =
        stubEngine.enterBlock 0 0 (some ⟨.valType .I32, [.Plain 1, .Plain 11]⟩)
          [.Plain 1, .Plain 11] demoPopped ∧
      runLoopOp stubEngine ⟨.typeIdx 2, [.Plain 1, .Plain 11]⟩ demoPopped =
        stubEngine.enterBlock 2 2 (some ⟨.typeIdx 2, [.Plain 1, .Plain 11]⟩)
          [.Plain 1, .Plain 11] demoPopped :=
  ⟨(runLoopOp_arity_is_param_count stubEngine demoPopped
      [.Plain 1, .Plain 11]).1 .I32,
    (runLoopOp_arity_is_param_count stubEngine demoPopped
      [.Plain 1, .Plain 11]).2 2 0 _ ⟨[.I32, .I64], [.F32]⟩ rfl rfl rfl (by decide)⟩

/-- C10: on a state whose top operand is the 32-bit condition,
`runIfElseOp` pops that one value and then, for a nonzero condition, enters
a block over the then-body when it has more than one instruction, and for a
zero condition enters a block over the else-body when it has more than one
instruction; when the selected body has at most one instruction nothing is
entered, so the body of the branch not selected is never entered. -/
theorem runIfElseOp_enters_selected_branch
    (Instr : IfElseControlInstruction) (M : Machine) (Cond : Nat)
    (hsig : (specBlockSignature M Instr.getBlockType).isSome = true) :
    ∃ Locals Arity : Nat, ∀ E : Engine,
      (toU32 Cond ≠ 0 → 1 < Instr.getIfStatement.length →
        runIfElseOp E Instr
            { M with StackMgr := { Entries := .Value (.I32 Cond) :: M.StackMgr.Entries } } =
          E.enterBlock Locals Arity none Instr.getIfStatement M) ∧
      (toU32 Cond = 0 → 1 < Instr.getElseStatement.length →
        runIfElseOp E Instr
            { M with StackMgr := { Entries := .Value (.I32 Cond) :: M.StackMgr.Entries } } =
          E.enterBlock Locals Arity none Instr.getElseStatement M) ∧
      (toU32 Cond ≠ 0 → Instr.getIfStatement.length ≤ 1 →
        runIfElseOp E Instr
            { M with StackMgr := { Entries := .Value (.I32 Cond) :: M.StackMgr.Entries } } =
          some (.ok (), M)) ∧
      (toU32 Cond = 0 → Instr.getElseStatement.length ≤ 1 →
        runIfElseOp E Instr
            { M with StackMgr := { Entries := .Value (.I32 Cond) :: M.StackMgr.Entries } } =
          some (.ok (), M)) := by
  obtain ⟨⟨Locals, Arity⟩, hsome⟩ := Option.isSome_iff_exists.mp hsig
  have hsig1 : specBlockSignature
      { M with StackMgr := { Entries := .Value (.I32 Cond) :: M.StackMgr.Entries } }
      Instr.getBlockType = some (Locals, Arity) := by
    rw [← hsome]
    exact (specBlockSignature_value _ (.I32 Cond) M.StackMgr.Entries _ rfl).symm
  refine ⟨toU32 Locals, toU32 Arity, fun E => ?_⟩
  have hrun := runIfElseOp_of_signature E _ Instr.getBlockType Instr.getIfStatement
    Instr.getElseStatement Cond M.StackMgr.Entries Locals Arity rfl hsig1
  refine ⟨?_, ?_, ?_, ?_⟩
  · intro hc hlen
    rw [hrun, if_pos hc, if_pos hlen]
  · intro hc hlen
    rw [hrun, if_neg (not_not.mpr hc), if_pos hlen]
  · intro hc hlen
    rw [hrun, if_pos hc, if_neg (Nat.not_lt.mpr hlen)]
  · intro hc hlen
    rw [hrun, if_neg (not_not.mpr hc), if_neg (Nat.not_lt.mpr hlen)]

/-- Witness of C10: an if of value type i32 with condition 1 above one
frame. -/
theorem runIfElseOp_enters_selected_branch_witness :
    ∃ Locals Arity : Nat, ∀ E : Engine,
      (toU32 1 ≠ 0 → 1 < demoIfElse.getIfStatement.length →
        runIfElseOp E demoIfElse
            { demoPopped with
              StackMgr := { Entries := .Value (.I32 1) :: demoPopped.StackMgr.Entries } } =
          E.enterBlock Locals Arity none demoIfElse.getIfStatement demoPopped) ∧
      (toU32 1 = 0 → 1 < demoIfElse.getElseStatement.length →
        runIfElseOp E demoIfElse
            { demoPopped with
              StackMgr := { Entries := .Value (.I32 1) :: demoPopped.StackMgr.Entries } } =
          E.enterBlock Locals Arity none demoIfElse.getElseStatement demoPopped) ∧
      (toU32 1 ≠ 0 → demoIfElse.getIfStatement.length ≤ 1 →
        runIfElseOp E demoIfElse
            { demoPopped with
              StackMgr := { Entries := .Value (.I32 1) :: demoPopped.StackMgr.Entries } } =
          some (.ok (), demoPopped)) ∧
      (toU32 1 = 0 → demoIfElse.getElseStatement.length ≤ 1 →
        runIfElseOp E demoIfElse
            { demoPopped with
              StackMgr := { Entries := .Value (.I32 1) :: demoPopped.StackMgr.Entries } } =
          some (.ok (), demoPopped)) :=
  runIfElseOp_enters_selected_branch demoIfElse demoPopped 1 rfl

/-- C11: when the branch selected by the condition holds at most one
instruction, `runIfElseOp` returns success and leaves the input state with
only the condition removed; the result is the same for every engine, so no
label is pushed and no block is entered, whatever the block type. -/
theorem runIfElseOp_empty_branch_noop
    (E : Engine) (Instr : IfElseControlInstruction) (M : Machine) (Cond : Nat)
    (hsig : (specBlockSignature M Instr.getBlockType).isSome = true)
    (hempty : if toU32 Cond ≠ 0 then Instr.getIfStatement.length ≤ 1
      else Instr.getElseStatement.length ≤ 1) :
    runIfElseOp E Instr
        { M with StackMgr := { Entries := .Value (.I32 Cond) :: M.StackMgr.Entries } } =
      some (.ok (), M) := by
  obtain ⟨⟨Locals, Arity⟩, hsome⟩ := Option.isSome_iff_exists.mp hsig
  have hsig1 : specBlockSignature
      { M with StackMgr := { Entries := .Value (.I32 Cond) :: M.StackMgr.Entries } }
      Instr.getBlockType = some (Locals, Arity) := by
    rw [← hsome]
    exact (specBlockSignature_value _ (.I32 Cond) M.StackMgr.Entries _ rfl).symm
  have hrun := runIfElseOp_of_signature E _ Instr.getBlockType Instr.getIfStatement
    Instr.getElseStatement Cond M.StackMgr.Entries Locals Arity rfl hsig1
  by_cases hc : toU32 Cond ≠ 0
  · rw [if_pos hc] at hempty
    rw [hrun, if_pos hc, if_neg (Nat.not_lt.mpr hempty)]
  · rw [if_neg hc] at hempty
    rw [hrun, if_neg hc, if_neg (Nat.not_lt.mpr hempty)]

/-- Witness of C11: condition 0 and an else body that is only the end
marker, next to a then body of two instructions. -/
theorem runIfElseOp_empty_branch_noop_witness :
    runIfElseOp stubEngine ⟨.typeIdx 2, [.Plain 1, .Plain 11], [.Plain 11]⟩
        (demoMachine 0) =
      some (.ok (), demoPopped) :=
  runIfElseOp_empty_branch_noop stubEngine
    ⟨.typeIdx 2, [.Plain 1, .Plain 11], [.Plain 11]⟩ demoPopped 0 rfl (by decide)

/-! ## br_if and return -/

/-- C12: on a state whose top operand is the 32-bit value `Cond`,
`runBrIfOp` returns success with only that operand removed when it is zero,
and otherwise is `runBrOp`, that is `branchToLabel` on the label index, run
on the state with the operand popped. -/
theorem runBrIfOp_zero_noop_nonzero_br
    (E : Engine) (Instr : BrControlInstruction) (M : Machine) (Cond : Nat) :
    (toU32 Cond = 0 →
        runBrIfOp E Instr
            { M with StackMgr := { Entries := .Value (.I32 Cond) :: M.StackMgr.Entries } } =
          some (.ok (), M)) ∧
      (toU32 Cond ≠ 0 →
        runBrIfOp E Instr
            { M with StackMgr := { Entries := .Value (.I32 Cond) :: M.StackMgr.Entries } } =
          runBrOp E Instr M ∧
        runBrOp E Instr M = E.branchToLabel Instr.getLabelIndex M) := by
  constructor
  · intro hc
    simp [runBrIfOp, StackManager.pop, retrieveValueU32, hc]
  · intro hc
    refine ⟨?_, rfl⟩
    simp [runBrIfOp, StackManager.pop, retrieveValueU32, hc]

/-- Witness of C12: `br_if 3` with operand 0 and with operand 6. -/
theorem runBrIfOp_zero_noop_nonzero_br_witness :
    runBrIfOp stubEngine ⟨3⟩ (demoMachine 0) = some (.ok (), demoPopped) ∧
      runBrIfOp stubEngine ⟨3⟩ (demoMachine 6) = runBrOp stubEngine ⟨3⟩ demoPopped ∧
      runBrOp stubEngine ⟨3⟩ demoPopped = stubEngine.branchToLabel 3 demoPopped :=
  ⟨(runBrIfOp_zero_noop_nonzero_br stubEngine ⟨3⟩ demoPopped 0).1 (by decide),
    (runBrIfOp_zero_noop_nonzero_br stubEngine ⟨3⟩ demoPopped 6).2 (by decide)⟩

/-- C13: `runReturnOp` is one `popFrame` and nothing else: it is defined
exactly when `popFrame` is, then returns success with the stack `popFrame`
leaves and the store untouched; it never returns an error. -/
theorem runReturnOp_eq_popFrame (M : Machine) :
    runReturnOp M =
        M.StackMgr.popFrame.map (fun S => (Except.ok (), { M with StackMgr := S })) ∧
      ∀ (Err : ErrCode) (M1 : Machine), runReturnOp M ≠ some (.error Err, M1) := by
  cases hpop : M.StackMgr.popFrame with
  | none => simp [runReturnOp, hpop]
  | some S => simp [runReturnOp, hpop]

/-- Witness of C13: inside the nested call the return keeps the one result
on top and drops the other operand, the label and the frame, down to the
entries of the caller. -/
theorem runReturnOp_eq_popFrame_witness :
    runReturnOp demoNested =
      some (.ok (),
        { demoNested with
          StackMgr :=
            { Entries := [.Value (.I32 8), .Value (.I64 3), .Frame ⟨5, [], 0, 0⟩] } }) :=
  (runReturnOp_eq_popFrame demoNested).1.trans rfl

/-! ## call -/

/-- The current module address is that of the first frame met from the top
of the stack. -/
theorem innermostModuleAddr_append_frame (Above Below : List StackEntry) (F : Frame)
    (hAbove : ∀ X ∈ Above, ∀ G : Frame, X ≠ .Frame G) :
    innermostModuleAddr (Above ++ .Frame F :: Below) = some F.ModuleAddr := by
  induction Above with
  | nil => rfl
  | cons X Rest ih =>
    have hRest : ∀ Y ∈ Rest, ∀ G : Frame, Y ≠ .Frame G :=
      fun Y hY => hAbove Y (List.mem_cons_of_mem _ hY)
    cases X with
    | Frame G => exact absurd rfl (hAbove _ (List.mem_cons_self _ _) G)
    | Value V => simpa [innermostModuleAddr] using ih hRest
    | Label L => simpa [innermostModuleAddr] using ih hRest

/-- C14: `runCallOp` resolves the function index through the module
instance of the innermost frame of the stack, looks the resulting address
up in the store, and is `enterFunction` on that instance, run on the state
as the handler received it: no operand is popped before the entry. -/
theorem runCallOp_enters_resolved_function
    (E : Engine) (Instr : CallControlInstruction) (M : Machine)
    (Above Below : List StackEntry) (F : Frame)
    (ModInst : ModuleInstance) (FuncAddr : Nat) (FuncInst : FunctionInstance)
    (hstack : M.StackMgr.Entries = Above ++ .Frame F :: Below)
    (hAbove : ∀ X ∈ Above, ∀ G : Frame, X ≠ .Frame G)
    (hinst : M.StoreMgr.getModule F.ModuleAddr = some ModInst)
    (haddr : ModInst.getFuncAddr Instr.getTargetIndex = some FuncAddr)
    (hfunc : M.StoreMgr.getFunction FuncAddr = some FuncInst) :
    M.StackMgr.getModuleAddr = some F.ModuleAddr ∧
      runCallOp E Instr M = E.enterFunction FuncInst M := by
  have hmod : M.StackMgr.getModuleAddr = some F.ModuleAddr := by
    rw [StackManager.getModuleAddr, hstack]
    exact innermostModuleAddr_append_frame Above Below F hAbove
  refine ⟨hmod, ?_⟩
  simp [runCallOp, hmod, hinst, haddr, hfunc]

/-- Witness of C14: `call 1` inside the nested call resolves through
module 0, the module of the innermost frame, to function address 1. -/
theorem runCallOp_enters_resolved_function_witness :
    demoNested.StackMgr.getModuleAddr = some 0 ∧
      runCallOp stubEngine ⟨1, 0, 16, 0⟩ demoNested =
        stubEngine.enterFunction ⟨0, ⟨[], []⟩, [.Plain 11]⟩ demoNested :=
  runCallOp_enters_resolved_function stubEngine ⟨1, 0, 16, 0⟩ demoNested
    [.Value (.I32 8), .Value (.I32 9), .Label ⟨0, none, 0⟩]
    [.Value (.I64 3), .Frame ⟨5, [], 0, 0⟩] ⟨0, [], 0, 1⟩
    ⟨[⟨[.I32], [.I32]⟩, ⟨[], []⟩, ⟨[.I32, .I64], [.F32]⟩], [0, 1], [0]⟩ 1
    ⟨0, ⟨[], []⟩, [.Plain 11]⟩ rfl
    (by
      intro X hX G hG
      subst hG
      simp at hX)
    rfl rfl rfl

/-! ## Continuations -/

/-- What `runBlockOp` passes to `enterBlock` in terms of the signature the
specification assigns, the two counts read as `uint32_t`. -/
theorem runBlockOp_of_signature_u32 (E : Engine) (M : Machine) (BType : BlockType)
    (Body : List Instruction) (Locals Arity : Nat)
    (hsig : specBlockSignature M BType = some (Locals, Arity)) :
    runBlockOp E ⟨BType, Body⟩ M =
      E.enterBlock (toU32 Locals) (toU32 Arity) none Body M := by
  cases BType with
  | valType T =>
    cases T <;> simp [specBlockSignature] at hsig <;>
      obtain ⟨rfl, rfl⟩ := hsig <;> simp [runBlockOp, toU32]
  | typeIdx X =>
    simp only [specBlockSignature, Option.bind_eq_bind, Option.bind_eq_some,
      Option.some.injEq, Prod.mk.injEq] at hsig
    obtain ⟨ModAddr, hmod, ModInst, hinst, FuncType, htype, rfl, rfl⟩ := hsig
    simp [runBlockOp, hmod, hinst, htype]

/-- C15: `runLoopOp` hands `enterBlock` the loop instruction itself as the
continuation, with the body of the loop as the sequence to run, while
`runBlockOp` and `runIfElseOp`, for the branch it enters, hand it no
continuation. -/
theorem enterBlock_continuation_loop_vs_block
    (M : Machine) (BType : BlockType)
    (Body IfStatement ElseStatement : List Instruction) (Cond : Nat)
    (hsig : (specBlockSignature M BType).isSome = true) :
    (∃ Arity : Nat, ∀ E : Engine,
        runLoopOp E ⟨BType, Body⟩ M =
          E.enterBlock Arity Arity (some ⟨BType, Body⟩) Body M) ∧
      ∃ Locals Arity : Nat, ∀ E : Engine,
        runBlockOp E ⟨BType, Body⟩ M = E.enterBlock Locals Arity none Body M ∧
        (toU32 Cond ≠ 0 → 1 < IfStatement.length →
          runIfElseOp E ⟨BType, IfStatement, ElseStatement⟩
              { M with StackMgr := { Entries := .Value (.I32 Cond) :: M.StackMgr.Entries } } =
            E.enterBlock Locals Arity none IfStatement M) ∧
        (toU32 Cond = 0 → 1 < ElseStatement.length →
          runIfElseOp E ⟨BType, IfStatement, ElseStatement⟩
              { M with StackMgr := { Entries := .Value (.I32 Cond) :: M.StackMgr.Entries } } =
            E.enterBlock Locals Arity none ElseStatement M) := by
  obtain ⟨⟨Locals, Arity⟩, hsome⟩ := Option.isSome_iff_exists.mp hsig
  constructor
  · cases BType with
    | valType T => exact ⟨0, fun E => rfl⟩
    | typeIdx X =>
      simp only [specBlockSignature, Option.bind_eq_bind, Option.bind_eq_some,
        Option.some.injEq, Prod.mk.injEq] at hsome
      obtain ⟨ModAddr, hmod, ModInst, hinst, FuncType, htype, -, -⟩ := hsome
      exact ⟨toU32 FuncType.Params.length, fun E => by
        simp [runLoopOp, hmod, hinst, htype]⟩
  · have hsig1 : specBlockSignature
        { M with StackMgr := { Entries := .Value (.I32 Cond) :: M.StackMgr.Entries } }
        BType = some (Locals, Arity) := by
      rw [← hsome]
      exact (specBlockSignature_value _ (.I32 Cond) M.StackMgr.Entries BType rfl).symm
    refine ⟨toU32 Locals, toU32 Arity, fun E => ?_⟩
    have hrun := runIfElseOp_of_signature E _ BType IfStatement ElseStatement Cond
      M.StackMgr.Entries Locals Arity rfl hsig1
    refine ⟨runBlockOp_of_signature_u32 E M BType Body Locals Arity hsome, ?_, ?_⟩
    · intro hc hlen
      rw [hrun, if_pos hc, if_pos hlen]
    · intro hc hlen
      rw [hrun, if_neg (not_not.mpr hc), if_pos hlen]

/-- Witness of C15: block type index 2 over one frame of module 0, with
condition 1 for the if. -/
theorem enterBlock_continuation_loop_vs_block_witness :
    (∃ Arity : Nat, ∀ E : Engine,
        runLoopOp E ⟨.typeIdx 2, [.Plain 1, .Plain 11]⟩ demoPopped =
          E.enterBlock Arity Arity (some ⟨.typeIdx 2, [.Plain 1, .Plain 11]⟩)
            [.Plain 1, .Plain 11] demoPopped) ∧
      ∃ Locals Arity : Nat, ∀ E : Engine,
        runBlockOp E ⟨.typeIdx 2, [.Plain 1, .Plain 11]⟩ demoPopped =
          E.enterBlock Locals Arity none [.Plain 1, .Plain 11] demoPopped ∧
        (toU32 1 ≠ 0 → 1 < [Instruction.Plain 3, .Plain 11].length →
          runIfElseOp E ⟨.typeIdx 2, [.Plain 3, .Plain 11], [.Plain 4, .Plain 11]⟩
              { demoPopped with
                StackMgr :=
                  { Entries := .Value (.I32 1) :: demoPopped.StackMgr.Entries } } =
            E.enterBlock Locals Arity none [.Plain 3, .Plain 11] demoPopped) ∧
        (toU32 1 = 0 → 1 < [Instruction.Plain 4, .Plain 11].length →
          runIfElseOp E ⟨.typeIdx 2, [.Plain 3, .Plain 11], [.Plain 4, .Plain 11]⟩
              { demoPopped with
                StackMgr :=
                  { Entries := .Value (.I32 1) :: demoPopped.StackMgr.Entries } } =
            E.enterBlock Locals Arity none [.Plain 4, .Plain 11] demoPopped) :=
  enterBlock_continuation_loop_vs_block demoPopped (.typeIdx 2) [.Plain 1, .Plain 11]
    [.Plain 3, .Plain 11] [.Plain 4, .Plain 11] 1 rfl

/-! ## Frame effect of a trapping call_indirect -/

/-- An error returned by `runCallIndirectOp`, when the callee entry reports
none, comes from one of the three checks: the state left is the input with
the index popped and the outcome is the same under every engine. -/
theorem runCallIndirectOp_error_inv
    (E : Engine) (Instr : CallControlInstruction) (M M1 : Machine) (Err : ErrCode)
    (hE : ∀ F M0 R, E.enterFunction F M0 = some R → R.1 = .ok ())
    (h : runCallIndirectOp E Instr M = some (.error Err, M1)) :
    ∃ (Idx : Nat) (Rest : List StackEntry),
      M.StackMgr.Entries = .Value (.I32 Idx) :: Rest ∧
      M1 = { M with StackMgr := { Entries := Rest } } ∧
      ∀ E2 : Engine, runCallIndirectOp E2 Instr M = some (.error Err, M1) := by
  rcases hS : M.StackMgr.Entries with _ | ⟨(V | L | F), Rest⟩
  · simp [runCallIndirectOp, StackManager.pop, hS] at h
  · cases V with
    | I32 Idx =>
      refine ⟨Idx, Rest, rfl, ?_⟩
      simp [runCallIndirectOp, StackManager.pop, hS, retrieveValueU32] at h
      simp only [Option.bind_eq_some] at h
      obtain ⟨TabInst, htab, ModAddr, hmod, ModInst, hinst, TargetFuncType, htype, h⟩ := h
      split_ifs at h with hsize
      · simp only [Option.some.injEq, Prod.mk.injEq, Except.error.injEq] at h
        obtain ⟨rfl, rfl⟩ := h
        refine ⟨rfl, fun E2 => ?_⟩
        simp [runCallIndirectOp, StackManager.pop, hS, retrieveValueU32, htab, hmod,
          hinst, htype, hsize]
      · simp only [Option.bind_eq_some] at h
        obtain ⟨Ref, hslot, h⟩ := h
        split_ifs at h with hnull
        · simp only [Option.some.injEq, Prod.mk.injEq, Except.error.injEq] at h
          obtain ⟨rfl, rfl⟩ := h
          refine ⟨rfl, fun E2 => ?_⟩
          simp [runCallIndirectOp, StackManager.pop, hS, retrieveValueU32, htab, hmod,
            hinst, htype, hsize, hslot, hnull]
        · simp only [Option.bind_eq_some] at h
          obtain ⟨FuncAddr, haddr, FuncInst, hfunc, h⟩ := h
          split_ifs at h with hty
          · have hok := hE _ _ _ h
            simp at hok
          · simp only [Option.some.injEq, Prod.mk.injEq, Except.error.injEq] at h
            obtain ⟨rfl, rfl⟩ := h
            refine ⟨rfl, fun E2 => ?_⟩
            simp [runCallIndirectOp, StackManager.pop, hS, retrieveValueU32, htab, hmod,
              hinst, htype, hsize, hslot, hnull, haddr, hfunc, hty]
    | _ => simp [runCallIndirectOp, StackManager.pop, hS, retrieveValueU32] at h
  · simp [runCallIndirectOp, StackManager.pop, hS] at h
  · simp [runCallIndirectOp, StackManager.pop, hS] at h

/-- C16: when `runCallIndirectOp` raises one of its three traps (the callee
entry of the engine reporting no error of its own), `enterFunction` is not
invoked, the outcome being the same under every engine; the stack left is
the input stack with its top entry, the index operand, removed, and the
store, the resolved table and the current module are those of the input. -/
theorem runCallIndirectOp_trap_frame_effect
    (E : Engine) (Instr : CallControlInstruction) (M M1 : Machine) (Err : ErrCode)
    (hE : ∀ F M0 R, E.enterFunction F M0 = some R → R.1 = .ok ())
    (h : runCallIndirectOp E Instr M = some (.error Err, M1)) :
    (∀ E2 : Engine, runCallIndirectOp E2 Instr M = some (.error Err, M1)) ∧
      (∃ Idx : Nat, M.StackMgr.Entries = .Value (.I32 Idx) :: M1.StackMgr.Entries) ∧
      M1.StoreMgr = M.StoreMgr ∧
      getTabInstByIdx M1 Instr.getTableIndex = getTabInstByIdx M Instr.getTableIndex ∧
      M1.StackMgr.getModuleAddr = M.StackMgr.getModuleAddr := by
  obtain ⟨Idx, Rest, hstack, rfl, hall⟩ := runCallIndirectOp_error_inv E Instr M M1 Err hE h
  have hmod : innermostModuleAddr Rest = M.StackMgr.getModuleAddr :=
    (StackManager.getModuleAddr_value _ _ _ hstack).symm
  refine ⟨hall, ⟨Idx, hstack⟩, rfl, ?_, hmod⟩
  simp only [getTabInstByIdx, StackManager.getModuleAddr] at hmod ⊢
  rw [hmod]

/-- Witness of C16: the null slot at index 1 traps UninitializedElement and
leaves the frame alone under the store it started with. -/
theorem runCallIndirectOp_trap_frame_effect_witness :
    (∀ E2 : Engine,
        runCallIndirectOp E2 ⟨0, 0, 17, 0⟩ (demoMachine 1) =
          some (.error ErrCode.UninitializedElement, demoPopped)) ∧
      (∃ Idx : Nat,
        (demoMachine 1).StackMgr.Entries =
          .Value (.I32 Idx) :: demoPopped.StackMgr.Entries) ∧
      demoPopped.StoreMgr = (demoMachine 1).StoreMgr ∧
      getTabInstByIdx demoPopped (⟨0, 0, 17, 0⟩ : CallControlInstruction).getTableIndex =
        getTabInstByIdx (demoMachine 1)
          (⟨0, 0, 17, 0⟩ : CallControlInstruction).getTableIndex ∧
      demoPopped.StackMgr.getModuleAddr = (demoMachine 1).StackMgr.getModuleAddr :=
  runCallIndirectOp_trap_frame_effect stubEngine ⟨0, 0, 17, 0⟩ (demoMachine 1)
    demoPopped ErrCode.UninitializedElement
    (fun _ _ R hR => by
      simp only [stubEngine, Option.some.injEq] at hR
      rw [← hR])
    rfl

/-! ## Unsigned reading of the popped index -/

/-- C17: a popped value whose bit 31 is set, negative when read as signed,
is read as a number of at least 2^31: `runBrTableOp` with fewer than 2^31
labels branches to the default label, and `runCallIndirectOp` on a table of
at most 2^31 slots traps UndefinedElement; no entry and no slot is
selected. -/
theorem popped_index_read_unsigned (E : Engine) (V : Nat)
    (hbit : (toU32 V).testBit 31 = true) :
    2 ^ 31 ≤ toU32 V ∧
      (∀ (Instr : BrTableControlInstruction) (M : Machine),
        Instr.getLabelList.length < 2 ^ 31 →
        runBrTableOp E Instr
            { M with StackMgr := { Entries := .Value (.I32 V) :: M.StackMgr.Entries } } =
          E.branchToLabel Instr.getLabelIndex M) ∧
      ∀ (Instr : CallControlInstruction) (M : Machine) (TabInst : TableInstance)
        (ModAddr : Nat) (ModInst : ModuleInstance) (TargetFuncType : FType),
        getTabInstByIdx M Instr.getTableIndex = some TabInst →
        M.StackMgr.getModuleAddr = some ModAddr →
        M.StoreMgr.getModule ModAddr = some ModInst →
        ModInst.getFuncType Instr.getTargetIndex = some TargetFuncType →
        TabInst.getSize ≤ 2 ^ 31 →
        runCallIndirectOp E Instr
            { M with StackMgr := { Entries := .Value (.I32 V) :: M.StackMgr.Entries } } =
          some (.error ErrCode.UndefinedElement, M) := by
  have hge : 2 ^ 31 ≤ toU32 V := by
    have hlt : toU32 V < 2 ^ 32 := Nat.mod_lt _ (by decide)
    rw [Nat.testBit_to_div_mod] at hbit
    have hmod : toU32 V / 2 ^ 31 % 2 = 1 := of_decide_eq_true hbit
    omega
  refine ⟨hge, ?_, ?_⟩
  · intro Instr M hlen
    have hnot : ¬ toU32 V < Instr.getLabelList.length := by omega
    simp [runBrTableOp, StackManager.pop, retrieveValueU32, hnot]
  · intro Instr M TabInst ModAddr ModInst TargetFuncType htab hmod hinst htype hsize
    have hle : TabInst.getSize ≤ toU32 V := by omega
    have htab1 : getTabInstByIdx
        { M with StackMgr := { Entries := .Value (.I32 V) :: M.StackMgr.Entries } }
        Instr.getTableIndex = some TabInst := by
      rw [← htab]
      simp [getTabInstByIdx, StackManager.getModuleAddr, innermostModuleAddr]
    have hmod1 : innermostModuleAddr M.StackMgr.Entries = some ModAddr := hmod
    simp [runCallIndirectOp, htab1, StackManager.getModuleAddr, innermostModuleAddr,
      hmod1, hinst, htype, StackManager.pop, retrieveValueU32, hle]

/-- Witness of C17: the popped value 0xFFFFFFFF, -1 when read as signed, on
the label list [4, 7] with default 9 and on the table of three slots. -/
theorem popped_index_read_unsigned_witness :
    runBrTableOp stubEngine ⟨[4, 7], 9⟩ (demoMachine 4294967295) =
        stubEngine.branchToLabel 9 demoPopped ∧
      runCallIndirectOp stubEngine ⟨0, 0, 17, 0⟩ (demoMachine 4294967295) =
        some (.error ErrCode.UndefinedElement, demoPopped) :=
  ⟨(popped_index_read_unsigned stubEngine 4294967295 (by decide)).2.1
      ⟨[4, 7], 9⟩ demoPopped (by decide),
    (popped_index_read_unsigned stubEngine 4294967295 (by decide)).2.2
      ⟨0, 0, 17, 0⟩ demoPopped
      ⟨[.FuncRef (some 0), .FuncRef none, .FuncRef (some 1)]⟩ 0 _ ⟨[.I32], [.I32]⟩
      rfl rfl rfl rfl (by decide)⟩

end SSVM
